import Mathlib

/-!
Shallow embedding of the MiniTwit web application (`src/minitwit.py`).

The relational store (sqlite tables `user`, `message`, `follower`) is
modelled as lists of rows; the literal SQL statements of the source are
translated into list operations:
  - `select ... from message, user where ...` becomes a filtered cartesian
    product (`flatMap` over messages of the filtered user list),
  - `order by message.pub_date desc` becomes `List.insertionSort` with the
    descending-timestamp relation,
  - `limit L offset O` becomes `List.drop O` followed by `List.take L`.
Each Flask route is a pure function from the database, the authenticated
viewer (`g.user` / `session` collapsed to an `Option Nat` of the viewer's
user id) and the request parameters to a `RouteResult`: the HTTP response,
the resulting database, the resulting session, and the list of side
effects executed (database queries, password checks, inserts), which lets
frame conditions ("no query is executed") be stated.
-/

namespace Minitwit

/-- A row of the `user` table (schema fields used by `minitwit.py`). -/
structure User where
  user_id : Nat
  username : String
  email : String
  pw_hash : String
deriving Repr, DecidableEq

/-- A row of the `message` table. `flagged` is the moderation marker;
the source only ever inserts `0` and filters on `flagged = 0`. -/
structure Message where
  message_id : Nat
  author_id : Nat
  text : String
  pub_date : Nat
  flagged : Nat
deriving Repr, DecidableEq

/-- A row of the `follower` table: the ordered follow edge. -/
structure Follower where
  who_id : Nat
  whom_id : Nat
deriving Repr, DecidableEq

/-- The database state: the three tables, each a list of rows in
insertion order (sqlite default scan order). -/
structure DB where
  users : List User
  messages : List Message
  followers : List Follower
deriving Repr, DecidableEq

/-- One result row of a timeline query: `select message.*, user.*`. -/
structure Row where
  msg : Message
  usr : User
deriving Repr, DecidableEq

/-- `PER_PAGE = 30` from the configuration block. -/
def PER_PAGE : Nat := 30

/-- Descending order on publication timestamps: `a` may precede `b` when
`b.pub_date ≤ a.pub_date` (`order by message.pub_date desc`). -/
def msgLe (a b : Message) : Prop := b.pub_date ≤ a.pub_date

instance : DecidableRel msgLe := fun a b =>
  inferInstanceAs (Decidable (b.pub_date ≤ a.pub_date))

instance : IsTotal Message msgLe :=
  ⟨fun a b => Nat.le_total b.pub_date a.pub_date⟩

instance : IsTrans Message msgLe :=
  ⟨fun _ _ _ h1 h2 => Nat.le_trans h2 h1⟩

/-- The same descending order, lifted to joined result rows. -/
def rowLe (a b : Row) : Prop := msgLe a.msg b.msg

instance : DecidableRel rowLe := fun a b =>
  inferInstanceAs (Decidable (msgLe a.msg b.msg))

instance : IsTotal Row rowLe := ⟨fun a b => IsTotal.total a.msg b.msg⟩

instance : IsTrans Row rowLe :=
  ⟨fun _ _ _ h1 h2 => IsTrans.trans (r := msgLe) _ _ _ h1 h2⟩

/-- `select whom_id from follower where who_id = ?`. -/
def followedIds (db : DB) (who : Nat) : List Nat :=
  (db.followers.filter (fun f => f.who_id == who)).map (fun f => f.whom_id)

/-- The unordered join `from message, user where cond`: for every message
row, every user row satisfying the condition produces a result row. -/
def joinRows (db : DB) (cond : Message → User → Bool) : List Row :=
  db.messages.flatMap
    (fun m => ((db.users.filter (fun u => cond m u)).map (fun u => ⟨m, u⟩)))

/-- `order by message.pub_date desc limit per_page offset page*per_page`
applied to a join. -/
def pageOf (rows : List Row) (page per_page : Nat) : List Row :=
  ((rows.insertionSort rowLe).drop (page * per_page)).take per_page

/-- The `where` clause of the home timeline (route `timeline`):
`message.flagged = 0 and message.author_id = user.user_id and
(user.user_id = ? or user.user_id in (select whom_id from follower where
who_id = ?))`. -/
def homeCond (db : DB) (viewer : Nat) (m : Message) (u : User) : Bool :=
  m.flagged == 0 && m.author_id == u.user_id &&
    (u.user_id == viewer || (followedIds db viewer).contains u.user_id)

/-- The home timeline query of route `timeline`. -/
def timeline_query (db : DB) (viewer page per_page : Nat) : List Row :=
  pageOf (joinRows db (homeCond db viewer)) page per_page

/-- The `where` clause of route `public_timeline`:
`message.flagged = 0 and message.author_id = user.user_id`. -/
def publicCond (m : Message) (u : User) : Bool :=
  m.flagged == 0 && m.author_id == u.user_id

/-- The public timeline query of route `public_timeline`. -/
def public_timeline_query (db : DB) (page per_page : Nat) : List Row :=
  pageOf (joinRows db publicCond) page per_page

/-- The `where` clause of route `user_timeline`: `message.flagged = 0 and
user.user_id = message.author_id and user.user_id = ?`. -/
def userCond (profileId : Nat) (m : Message) (u : User) : Bool :=
  m.flagged == 0 && u.user_id == m.author_id && u.user_id == profileId

/-- The profile timeline query of route `user_timeline`. -/
def user_timeline_query (db : DB) (profileId page per_page : Nat) :
    List Row :=
  pageOf (joinRows db (userCond profileId)) page per_page

/-- `get_user_id`: `select user_id from user where username = ?`,
first matching row or absent. -/
def get_user_id (db : DB) (username : String) : Option Nat :=
  (db.users.find? (fun u => u.username == username)).map (fun u => u.user_id)

/-- The `followed` check of route `user_timeline` — the query-layer
`is_following`: `select 1 from follower where follower.who_id = ? and
follower.whom_id = ?` is non-empty. -/
def is_following (db : DB) (who whom : Nat) : Bool :=
  db.followers.any (fun f => f.who_id == who && f.whom_id == whom)

/-- sqlite rowid assignment for an insert: one more than the largest
existing id (1 on an empty table). -/
def next_user_id (db : DB) : Nat :=
  (db.users.map (fun u => u.user_id)).foldr max 0 + 1

/-- sqlite rowid assignment for a `message` insert. -/
def next_message_id (db : DB) : Nat :=
  (db.messages.map (fun m => m.message_id)).foldr max 0 + 1

/-- An HTTP response as the routes produce them: a redirect
(`redirect(url_for(...))`), a rendered timeline page, a rendered form
page with an optional error message, or an `abort(status)`. -/
inductive Response where
  | redirect (target : String)
  | renderRows (template : String) (rows : List Row)
  | renderPage (template : String) (msg : Option String)
  | httpError (status : Nat)
deriving Repr, DecidableEq

/-- The outcome of handling one request: the response, the database
afterwards, the session's viewer id afterwards, and the names of the
side-effecting operations the handler executed, in order. -/
structure RouteResult where
  response : Response
  db : DB
  sessionUserId : Option Nat
  events : List String
deriving Repr, DecidableEq

/-- Route `/` (`timeline`): anonymous viewers are redirected to the
public timeline before any query runs; an authenticated viewer gets the
home timeline page. -/
def timeline_route (db : DB) (guser : Option Nat) (page : Nat) :
    RouteResult :=
  match guser with
  | none => ⟨.redirect "public_timeline", db, none, []⟩
  | some uid =>
      ⟨.renderRows "timeline.html" (timeline_query db uid page PER_PAGE),
        db, some uid, ["query_db"]⟩

/-- Route `/public` (`public_timeline`). -/
def public_timeline_route (db : DB) (guser : Option Nat) (page : Nat) :
    RouteResult :=
  ⟨.renderRows "timeline.html" (public_timeline_query db page PER_PAGE),
    db, guser, ["query_db"]⟩

/-- Route `/<username>` (`user_timeline`): 404 for an unknown username,
otherwise the profile page with the `followed` flag. -/
def user_timeline_route (db : DB) (guser : Option Nat) (username : String)
    (page : Nat) : RouteResult :=
  match db.users.find? (fun u => u.username == username) with
  | none => ⟨.httpError 404, db, guser, ["query_db"]⟩
  | some profile =>
      ⟨.renderRows "timeline.html"
          (user_timeline_query db profile.user_id page PER_PAGE),
        db, guser, ["query_db", "query_db"]⟩

/-- Route `/<username>/follow` (`follow_user`): 401 unauthenticated,
404 unknown username, otherwise
`insert into follower (who_id, whom_id) values (?, ?)`. -/
def follow_user (db : DB) (guser : Option Nat) (username : String) :
    RouteResult :=
  match guser with
  | none => ⟨.httpError 401, db, none, []⟩
  | some who =>
      match get_user_id db username with
      | none => ⟨.httpError 404, db, some who, ["get_user_id"]⟩
      | some whom =>
          ⟨.redirect "user_timeline",
            { db with followers := db.followers ++ [⟨who, whom⟩] },
            some who, ["get_user_id", "insert_follower"]⟩

/-- Route `/<username>/unfollow` (`unfollow_user`): 401 unauthenticated,
404 unknown username, otherwise
`delete from follower where who_id=? and whom_id=?`. -/
def unfollow_user (db : DB) (guser : Option Nat) (username : String) :
    RouteResult :=
  match guser with
  | none => ⟨.httpError 401, db, none, []⟩
  | some who =>
      match get_user_id db username with
      | none => ⟨.httpError 404, db, some who, ["get_user_id"]⟩
      | some whom =>
          ⟨.redirect "user_timeline",
            { db with followers :=
                (db.followers.filter
                  (fun f => !(f.who_id == who && f.whom_id == whom))) },
            some who, ["get_user_id", "delete_follower"]⟩

/-- Route `/add_message` (`add_message`): 401 without a session; a
truthy (non-empty) text is inserted with `flagged = 0`; an empty text
is silently skipped; both cases redirect to the timeline. -/
def add_message (db : DB) (sessionUser : Option Nat) (text : String)
    (now : Nat) : RouteResult :=
  match sessionUser with
  | none => ⟨.httpError 401, db, none, []⟩
  | some uid =>
      if text = "" then
        ⟨.redirect "timeline", db, some uid, []⟩
      else
        ⟨.redirect "timeline",
          { db with messages :=
              db.messages ++ [⟨next_message_id db, uid, text, now, 0⟩] },
          some uid, ["insert_message"]⟩

/-- Route `/login` (`login`): an already-authenticated viewer is
redirected to the timeline immediately; otherwise a POST looks up the
username and verifies the password hash (`check_password_hash` is the
external collaborator `checkHash`). -/
def login (db : DB) (guser : Option Nat) (isPost : Bool)
    (username password : String) (checkHash : String → String → Bool) :
    RouteResult :=
  match guser with
  | some u => ⟨.redirect "timeline", db, some u, []⟩
  | none =>
      if isPost then
        match db.users.find? (fun u => u.username == username) with
        | none =>
            ⟨.renderPage "login.html" (some "Invalid username"), db, none,
              ["query_db"]⟩
        | some user =>
            if checkHash user.pw_hash password then
              ⟨.redirect "timeline", db, some user.user_id,
                ["query_db", "check_password_hash"]⟩
            else
              ⟨.renderPage "login.html" (some "Invalid password"), db,
                none, ["query_db", "check_password_hash"]⟩
      else ⟨.renderPage "login.html" none, db, none, []⟩

/-- Route `/register` (`register`): an already-authenticated viewer is
redirected immediately; otherwise a POST runs the validation chain, the
existing-username check, and only then the insert
(`generate_password_hash` is the external collaborator `hash`). -/
def register (db : DB) (guser : Option Nat) (isPost : Bool)
    (username email password password2 : String)
    (hash : String → String) : RouteResult :=
  match guser with
  | some u => ⟨.redirect "timeline", db, some u, []⟩
  | none =>
      if isPost then
        if username = "" then
          ⟨.renderPage "register.html" (some "You have to enter a username"),
            db, none, []⟩
        else if email = "" || !(email.data.contains '@') then
          ⟨.renderPage "register.html"
              (some "You have to enter a valid email address"),
            db, none, []⟩
        else if password = "" then
          ⟨.renderPage "register.html" (some "You have to enter a password"),
            db, none, []⟩
        else if password ≠ password2 then
          ⟨.renderPage "register.html"
              (some "The two passwords do not match"),
            db, none, []⟩
        else
          match get_user_id db username with
          | some _ =>
              ⟨.renderPage "register.html"
                  (some "The username is already taken"),
                db, none, ["get_user_id"]⟩
          | none =>
              ⟨.redirect "login",
                { db with users := db.users ++
                    [⟨next_user_id db, username, email, hash password⟩] },
                none, ["get_user_id", "insert_user"]⟩
      else ⟨.renderPage "register.html" none, db, none, []⟩

/-- The per-message predicate equivalent to the home timeline's `where`
clause once the join equation `message.author_id = user.user_id` is
factored out: unflagged, and authored by the viewer or a followed user. -/
def homeQual (db : DB) (viewer : Nat) (m : Message) : Bool :=
  m.flagged == 0 &&
    (m.author_id == viewer || (followedIds db viewer).contains m.author_id)

/-- The per-message predicate of the public timeline: unflagged. -/
def publicQual (m : Message) : Bool :=
  m.flagged == 0

/-- Sample database used to instantiate proved properties: three users,
alice follows bob, three unflagged messages and one flagged message. -/
def sampleDB : DB :=
  ⟨[⟨1, "alice", "alice@example.com", "h1"⟩,
    ⟨2, "bob", "bob@example.com", "h2"⟩,
    ⟨3, "carol", "carol@example.com", "h3"⟩],
   [⟨1, 1, "m1", 10, 0⟩, ⟨2, 2, "m2", 20, 0⟩,
    ⟨3, 3, "m3", 30, 0⟩, ⟨4, 2, "m4", 40, 1⟩],
   [⟨1, 2⟩]⟩

lemma mem_joinRows {db : DB} {cond : Message → User → Bool} {r : Row} :
    r ∈ joinRows db cond ↔
      r.msg ∈ db.messages ∧ r.usr ∈ db.users ∧ cond r.msg r.usr = true := by
  simp only [joinRows, List.mem_flatMap, List.mem_map, List.mem_filter]
  constructor
  · rintro ⟨m, hm, u, ⟨hu, hc⟩, rfl⟩
    exact ⟨hm, hu, hc⟩
  · rintro ⟨hm, hu, hc⟩
    exact ⟨r.msg, hm, r.usr, ⟨hu, hc⟩, rfl⟩

lemma mem_of_mem_pageOf {rows : List Row} {page pp : Nat} {r : Row}
    (h : r ∈ pageOf rows page pp) : r ∈ rows := by
  have h1 : r ∈ rows.insertionSort rowLe :=
    ((List.take_sublist _ _).trans (List.drop_sublist _ _)).subset h
  exact (List.perm_insertionSort rowLe rows).subset h1

/-- Every row produced by any of the three timeline queries satisfies the
query's `where` condition. -/
lemma cond_of_mem_query {db : DB} {cond : Message → User → Bool}
    {page pp : Nat} {r : Row} (h : r ∈ pageOf (joinRows db cond) page pp) :
    r.msg ∈ db.messages ∧ r.usr ∈ db.users ∧ cond r.msg r.usr = true :=
  mem_joinRows.mp (mem_of_mem_pageOf h)

/-- C2: no flagged message ever appears in any timeline query.
In every result row of the home, public and profile timeline queries the
message has `flagged = 0`, hence never `flagged = 1`. -/
theorem timelines_exclude_flagged (db : DB) (V pid page pp : Nat) (r : Row) :
    (r ∈ timeline_query db V page pp → r.msg.flagged ≠ 1) ∧
    (r ∈ public_timeline_query db page pp → r.msg.flagged ≠ 1) ∧
    (r ∈ user_timeline_query db pid page pp → r.msg.flagged ≠ 1) := by
  refine ⟨fun h => ?_, fun h => ?_, fun h => ?_⟩
  · have hc := (cond_of_mem_query h).2.2
    simp only [homeCond, Bool.and_eq_true, beq_iff_eq] at hc
    omega
  · have hc := (cond_of_mem_query h).2.2
    simp only [publicCond, Bool.and_eq_true, beq_iff_eq] at hc
    omega
  · have hc := (cond_of_mem_query h).2.2
    simp only [userCond, Bool.and_eq_true, beq_iff_eq] at hc
    omega

/-- Witness for C2: in the sample database the home timeline of viewer 1
contains bob's message, and that message is indeed not flagged. -/
theorem timelines_exclude_flagged_witness :
    (⟨⟨2, 2, "m2", 20, 0⟩, ⟨2, "bob", "bob@example.com", "h2"⟩⟩ : Row) ∈
        timeline_query sampleDB 1 0 30 ∧
    (⟨⟨2, 2, "m2", 20, 0⟩, ⟨2, "bob", "bob@example.com", "h2"⟩⟩ : Row).msg.flagged ≠ 1 :=
  ⟨by decide,
    (timelines_exclude_flagged sampleDB 1 1 0 30
      ⟨⟨2, 2, "m2", 20, 0⟩, ⟨2, "bob", "bob@example.com", "h2"⟩⟩).1 (by decide)⟩

/-- C9: each timeline query joins messages with their author's user row,
so a message whose `author_id` matches no user never appears, whatever
its `flagged` value. -/
theorem timelines_require_existing_author (db : DB) (V pid page pp : Nat)
    (m : Message) (h : ∀ u ∈ db.users, u.user_id ≠ m.author_id) :
    m ∉ (timeline_query db V page pp).map Row.msg ∧
    m ∉ (public_timeline_query db page pp).map Row.msg ∧
    m ∉ (user_timeline_query db pid page pp).map Row.msg := by
  refine ⟨fun hmem => ?_, fun hmem => ?_, fun hmem => ?_⟩
  · obtain ⟨r, hr, rfl⟩ := List.mem_map.mp hmem
    obtain ⟨-, hu, hc⟩ := cond_of_mem_query hr
    simp only [homeCond, Bool.and_eq_true, beq_iff_eq] at hc
    exact h r.usr hu hc.1.2.symm
  · obtain ⟨r, hr, rfl⟩ := List.mem_map.mp hmem
    obtain ⟨-, hu, hc⟩ := cond_of_mem_query hr
    simp only [publicCond, Bool.and_eq_true, beq_iff_eq] at hc
    exact h r.usr hu hc.2.symm
  · obtain ⟨r, hr, rfl⟩ := List.mem_map.mp hmem
    obtain ⟨-, hu, hc⟩ := cond_of_mem_query hr
    simp only [userCond, Bool.and_eq_true, beq_iff_eq] at hc
    exact h r.usr hu hc.1.2

/-- Witness for C9: a message authored by the nonexistent user 99 appears
in no timeline of the sample database. -/
theorem timelines_require_existing_author_witness :
    (∀ u ∈ sampleDB.users, u.user_id ≠ 99) ∧
    (⟨9, 99, "ghost", 5, 0⟩ : Message) ∉
      (public_timeline_query sampleDB 0 30).map Row.msg :=
  ⟨by decide,
    (timelines_require_existing_author sampleDB 1 1 0 30 ⟨9, 99, "ghost", 5, 0⟩
      (by decide)).2.1⟩

/-- C7: an anonymous request to the root view is answered by a redirect
to the public timeline, with no error, no state change, and an empty
list of executed operations (in particular no timeline query). -/
theorem timeline_anonymous_redirects (db : DB) (page : Nat) :
    timeline_route db none page =
      ⟨.redirect "public_timeline", db, none, []⟩ :=
  rfl

/-- C6: posting the empty string as message text with an authenticated
session changes nothing — no row is inserted, no event is executed, no
error is raised — and responds with the normal redirect to the timeline. -/
theorem add_message_empty_silent (db : DB) (uid now : Nat) :
    add_message db (some uid) "" now =
      ⟨.redirect "timeline", db, some uid, []⟩ := by
  simp [add_message]

/-- Counterexample to C5 as stated: posting empty text does not fail with
a validation error; at a concrete input the handler answers with the
normal redirect and leaves the message table unchanged. -/
theorem add_message_empty_not_an_error :
    (add_message sampleDB (some 1) "" 99).response = .redirect "timeline" ∧
    (add_message sampleDB (some 1) "" 99).db.messages = sampleDB.messages := by
  constructor <;> rfl

/-- C5 amended: for every author id and timestamp, the add-message path
given empty text creates no message row and surfaces no error: the
message table is unchanged, no operation executes, and the response is
the normal redirect. -/
theorem add_message_empty_no_row (db : DB) (uid now : Nat) :
    (add_message db (some uid) "" now).response = .redirect "timeline" ∧
    (add_message db (some uid) "" now).db.messages = db.messages ∧
    (add_message db (some uid) "" now).events = [] := by
  refine ⟨?_, ?_, ?_⟩ <;> simp [add_message]

/-- C10: when a viewer is already authenticated, both the login and the
register handlers immediately redirect to the home timeline: the
database is unchanged, the session's viewer id is unchanged, and no
operation (credential check, lookup, insert) executes. -/
theorem login_register_authenticated_noop (db : DB) (u : Nat)
    (isPost : Bool) (un pw em p2 : String)
    (checkHash : String → String → Bool) (hash : String → String) :
    login db (some u) isPost un pw checkHash =
      ⟨.redirect "timeline", db, some u, []⟩ ∧
    register db (some u) isPost un em pw p2 hash =
      ⟨.redirect "timeline", db, some u, []⟩ :=
  ⟨rfl, rfl⟩

/-- C3: following then checking yields `true`; unfollowing then checking
yields `false`; unfollowing when no edge exists leaves the database
unchanged and raises no error (the response is the normal redirect). -/
theorem follow_unfollow_spec (db : DB) (A B : Nat) (uname : String)
    (hB : get_user_id db uname = some B) :
    is_following (follow_user db (some A) uname).db A B = true ∧
    (follow_user db (some A) uname).response = .redirect "user_timeline" ∧
    is_following (unfollow_user db (some A) uname).db A B = false ∧
    (unfollow_user db (some A) uname).response = .redirect "user_timeline" ∧
    (is_following db A B = false →
      (unfollow_user db (some A) uname).db = db) := by
  refine ⟨?_, ?_, ?_, ?_, ?_⟩
  · simp [follow_user, hB, is_following]
  · simp [follow_user, hB]
  · simp [unfollow_user, hB, is_following]
    intro x hx h h2
    tauto
  · simp [unfollow_user, hB]
  · intro hno
    simp only [is_following, List.any_eq_false] at hno
    simp only [unfollow_user, hB]
    have : (db.followers.filter
        (fun f => !(f.who_id == A && f.whom_id == B))) = db.followers :=
      List.filter_eq_self.mpr (fun f hf => by
        have h := hno f hf
        simp at h ⊢
        tauto)
    rw [this]

/-- Witness for C3: in the sample database, user 2 (who does not follow
user 1) follows and unfollows "alice"; the no-edge unfollow leaves the
database unchanged. -/
theorem follow_unfollow_spec_witness :
    get_user_id sampleDB "alice" = some 1 ∧
    (is_following (follow_user sampleDB (some 2) "alice").db 2 1 = true ∧
     (follow_user sampleDB (some 2) "alice").response = .redirect "user_timeline" ∧
     is_following (unfollow_user sampleDB (some 2) "alice").db 2 1 = false ∧
     (unfollow_user sampleDB (some 2) "alice").response = .redirect "user_timeline" ∧
     (is_following sampleDB 2 1 = false →
       (unfollow_user sampleDB (some 2) "alice").db = sampleDB)) :=
  ⟨by decide, follow_unfollow_spec sampleDB 2 1 "alice" (by decide)⟩

/-- When the join condition factors as a per-message predicate conjoined
with the join equation, a unique matching author makes the filtered user
list a singleton. -/
lemma filter_cond_singleton {users : List User} {m : Message}
    {cond : Message → User → Bool} {qual : Message → Bool}
    (hcond : ∀ m u, cond m u = (qual m && m.author_id == u.user_id))
    (hq : qual m = true)
    (hnd : (users.map User.user_id).Nodup)
    {u : User} (hu : u ∈ users) (hid : u.user_id = m.author_id) :
    users.filter (fun v => cond m v) = [u] := by
  induction users with
  | nil => cases hu
  | cons v t ih =>
    rw [List.map_cons, List.nodup_cons] at hnd
    rcases List.mem_cons.mp hu with rfl | hu2
    · rw [List.filter_cons_of_pos (by simp [hcond, hq, hid])]
      have ht : t.filter (fun w => cond m w) = [] := by
        rw [List.filter_eq_nil_iff]
        intro w hw
        rw [hcond, hq, Bool.true_and]
        simp only [Bool.not_eq_true, beq_eq_false_iff_ne, ne_eq]
        intro habs
        exact hnd.1 (by
          rw [hid, habs]
          exact List.mem_map_of_mem User.user_id hw)
      rw [ht]
    · have hv : cond m v = false := by
        rw [hcond, hq, Bool.true_and]
        simp only [beq_eq_false_iff_ne, ne_eq]
        intro habs
        exact hnd.1 (by
          rw [← habs, ← hid]
          exact List.mem_map_of_mem User.user_id hu2)
      rw [List.filter_cons_of_neg (by simp [hv])]
      exact ih hnd.2 hu2

/-- The joined-and-projected messages of a factorable join condition are
exactly the messages satisfying the per-message predicate, in table
order, provided user ids are unique and every qualifying message's
author exists. -/
lemma join_map_msg (users : List User) (msgs : List Message)
    (cond : Message → User → Bool) (qual : Message → Bool)
    (hcond : ∀ m u, cond m u = (qual m && m.author_id == u.user_id))
    (hnd : (users.map User.user_id).Nodup)
    (hex : ∀ m ∈ msgs, qual m = true →
      ∃ u ∈ users, u.user_id = m.author_id) :
    (msgs.flatMap
        (fun m => ((users.filter (fun u => cond m u)).map
          (fun u => (⟨m, u⟩ : Row))))).map Row.msg = msgs.filter qual := by
  induction msgs with
  | nil => rfl
  | cons m t ih =>
    rw [List.flatMap_cons, List.map_append,
      ih (fun x hx => hex x (List.mem_cons_of_mem _ hx))]
    by_cases hq : qual m = true
    · obtain ⟨u, hu, hid⟩ := hex m (List.mem_cons_self _ _) hq
      rw [filter_cond_singleton hcond hq hnd hu hid,
        List.filter_cons_of_pos hq]
      rfl
    · have hq2 : qual m = false := by simpa using hq
      have hnil : users.filter (fun v => cond m v) = [] := by
        rw [List.filter_eq_nil_iff]
        intro v hv
        simp [hcond, hq2]
      rw [hnil, List.filter_cons_of_neg (by simp [hq2])]
      rfl

/-- `joinRows` projected to messages, for a factorable condition. -/
lemma joinRows_map_msg (db : DB) (cond : Message → User → Bool)
    (qual : Message → Bool)
    (hcond : ∀ m u, cond m u = (qual m && m.author_id == u.user_id))
    (hnd : (db.users.map User.user_id).Nodup)
    (hex : ∀ m ∈ db.messages, qual m = true →
      ∃ u ∈ db.users, u.user_id = m.author_id) :
    (joinRows db cond).map Row.msg = db.messages.filter qual :=
  join_map_msg db.users db.messages cond qual hcond hnd hex

/-- The home timeline condition factors through `homeQual`. -/
lemma homeCond_eq (db : DB) (V : Nat) :
    ∀ m u, homeCond db V m u = (homeQual db V m && m.author_id == u.user_id) := by
  intro m u
  by_cases h : m.author_id = u.user_id
  · simp [homeCond, homeQual, ← h]
  · have hb : (m.author_id == u.user_id) = false := by simp [h]
    simp [homeCond, homeQual, hb]

/-- Projecting an ordered insert of rows to messages is an ordered insert
of the projections (the order relation only reads the message). -/
lemma map_msg_orderedInsert (a : Row) (l : List Row) :
    (l.orderedInsert rowLe a).map Row.msg =
      (l.map Row.msg).orderedInsert msgLe a.msg := by
  induction l with
  | nil => rfl
  | cons b t ih =>
    by_cases h : rowLe a b
    · have h2 : msgLe a.msg b.msg := h
      simp [List.orderedInsert, h, h2]
    · have h2 : ¬msgLe a.msg b.msg := h
      simp [List.orderedInsert, h, h2, ih]

/-- Projecting the sort of the joined rows to messages is the sort of the
projected messages. -/
lemma map_msg_insertionSort (l : List Row) :
    (l.insertionSort rowLe).map Row.msg =
      (l.map Row.msg).insertionSort msgLe := by
  induction l with
  | nil => rfl
  | cons a t ih =>
    simp only [List.insertionSort, List.map_cons]
    rw [map_msg_orderedInsert, ih]

/-- C1: for an authenticated viewer V the home timeline at page 0
returns exactly the unflagged messages authored by V or by a user V
follows, ordered by descending publication timestamp — provided user
ids are unique, every qualifying message's author exists in the user
table, and the qualifying messages fit in one page of size N. -/
theorem home_timeline_exact (db : DB) (V N : Nat)
    (hnd : (db.users.map User.user_id).Nodup)
    (hex : ∀ m ∈ db.messages, homeQual db V m = true →
      ∃ u ∈ db.users, u.user_id = m.author_id)
    (hlen : (db.messages.filter (homeQual db V)).length ≤ N) :
    ((timeline_query db V 0 N).map Row.msg).Perm
        (db.messages.filter (homeQual db V)) ∧
    List.Sorted msgLe ((timeline_query db V 0 N).map Row.msg) := by
  have hmap := joinRows_map_msg db _ _ (homeCond_eq db V) hnd hex
  have hlen2 :
      ((joinRows db (homeCond db V)).insertionSort rowLe).length ≤ N := by
    have h1 : ((joinRows db (homeCond db V)).map Row.msg).length =
        (db.messages.filter (homeQual db V)).length := by rw [hmap]
    rw [List.length_map] at h1
    rw [List.length_insertionSort, h1]
    exact hlen
  have hq : timeline_query db V 0 N =
      (joinRows db (homeCond db V)).insertionSort rowLe := by
    unfold timeline_query pageOf
    rw [Nat.zero_mul, List.drop_zero, List.take_of_length_le hlen2]
  rw [hq]
  constructor
  · have p1 : List.Perm
        (((joinRows db (homeCond db V)).insertionSort rowLe).map Row.msg)
        ((joinRows db (homeCond db V)).map Row.msg) :=
      (List.perm_insertionSort rowLe _).map Row.msg
    rw [hmap] at p1
    exact p1
  · exact List.Pairwise.map Row.msg (fun a b h => h)
      (List.sorted_insertionSort rowLe _)

/-- Witness for C1: in the sample database viewer 1 (who follows user 2)
gets exactly the unflagged messages of users 1 and 2, in descending
timestamp order. -/
theorem home_timeline_exact_witness :
    (sampleDB.users.map User.user_id).Nodup ∧
    (∀ m ∈ sampleDB.messages, homeQual sampleDB 1 m = true →
      ∃ u ∈ sampleDB.users, u.user_id = m.author_id) ∧
    (sampleDB.messages.filter (homeQual sampleDB 1)).length ≤ 30 ∧
    (((timeline_query sampleDB 1 0 30).map Row.msg).Perm
        (sampleDB.messages.filter (homeQual sampleDB 1)) ∧
      List.Sorted msgLe ((timeline_query sampleDB 1 0 30).map Row.msg)) :=
  ⟨by decide, by decide, by decide,
    home_timeline_exact sampleDB 1 30 (by decide) (by decide) (by decide)⟩

/-- C8: the public timeline at page p with page size 30 is the slice at
offsets p*30 .. p*30+29 of the unflagged messages sorted by descending
timestamp — provided user ids are unique and every unflagged message's
author exists in the user table. -/
theorem public_timeline_pagination (db : DB) (page : Nat)
    (hnd : (db.users.map User.user_id).Nodup)
    (hex : ∀ m ∈ db.messages, publicQual m = true →
      ∃ u ∈ db.users, u.user_id = m.author_id) :
    (public_timeline_query db page PER_PAGE).map Row.msg =
      (((db.messages.filter publicQual).insertionSort msgLe).drop
          (page * 30)).take 30 := by
  have hmap := joinRows_map_msg db publicCond publicQual
    (fun m u => rfl) hnd hex
  unfold public_timeline_query pageOf PER_PAGE
  rw [List.map_take, List.map_drop, map_msg_insertionSort, hmap]

/-- A database with one user and 35 of that user's unflagged messages,
timestamps 1..35: the pagination scenario of the spec. -/
def db35 : DB :=
  ⟨[⟨1, "poster", "poster@example.com", "h"⟩],
   (List.range 35).map (fun i => ⟨i + 1, 1, "t", i + 1, 0⟩),
   []⟩

/-- Witness for C8, the spec's 35-message scenario: page 0 is the slice
at offsets 0..29 (the 30 most recent) and page 1 the slice at offsets
30..34 (the remaining 5). -/
theorem public_timeline_pagination_witness :
    (db35.users.map User.user_id).Nodup ∧
    (∀ m ∈ db35.messages, publicQual m = true →
      ∃ u ∈ db35.users, u.user_id = m.author_id) ∧
    ((public_timeline_query db35 0 PER_PAGE).map Row.msg =
      (((db35.messages.filter publicQual).insertionSort msgLe).drop
          (0 * 30)).take 30) ∧
    ((public_timeline_query db35 1 PER_PAGE).map Row.msg =
      (((db35.messages.filter publicQual).insertionSort msgLe).drop
          (1 * 30)).take 30) ∧
    db35.messages.length = 35 ∧
    (public_timeline_query db35 0 PER_PAGE).length = 30 ∧
    (public_timeline_query db35 1 PER_PAGE).length = 5 :=
  ⟨by decide, by decide,
    public_timeline_pagination db35 0 (by decide) (by decide),
    public_timeline_pagination db35 1 (by decide) (by decide),
    by decide, by decide, by decide⟩

/-- C4: with valid fields and a free username, registration succeeds
(redirect to login) and looking the username up afterwards returns the
new user's id; a second registration with the same username fails with
the conflict error, and — the check running before the insert — leaves
the user table unchanged. -/
theorem register_then_conflict (db : DB) (u e p : String)
    (hash : String → String)
    (hu : u ≠ "") (he1 : e ≠ "") (he2 : '@' ∈ e.data)
    (hp : p ≠ "") (hfree : get_user_id db u = none) :
    (register db none true u e p p hash).response = .redirect "login" ∧
    get_user_id (register db none true u e p p hash).db u =
      some (next_user_id db) ∧
    (register (register db none true u e p p hash).db none true u e p p
        hash).response =
      .renderPage "register.html" (some "The username is already taken") ∧
    (register (register db none true u e p p hash).db none true u e p p
        hash).db = (register db none true u e p p hash).db := by
  have hreg : register db none true u e p p hash =
      ⟨.redirect "login",
        { db with users := db.users ++
            [⟨next_user_id db, u, e, hash p⟩] }, none,
        ["get_user_id", "insert_user"]⟩ := by
    simp [register, hu, he1, he2, hp, hfree]
  have hf : db.users.find? (fun x => x.username == u) = none := by
    cases hcase : db.users.find? (fun x => x.username == u) with
    | none => rfl
    | some x =>
        rw [get_user_id, hcase] at hfree
        simp at hfree
  have hlook : get_user_id
      ({ db with users := db.users ++
          [⟨next_user_id db, u, e, hash p⟩] } : DB) u =
      some (next_user_id db) := by
    rw [get_user_id]
    show ((db.users ++ [(⟨next_user_id db, u, e, hash p⟩ : User)]).find?
        (fun x => x.username == u)).map (fun x : User => x.user_id) =
      some (next_user_id db)
    rw [List.find?_append, hf, Option.none_or,
      List.find?_cons_of_pos _ (by simp)]
    rfl
  refine ⟨by rw [hreg], by rw [hreg]; exact hlook, ?_, ?_⟩
  · rw [hreg]
    simp only [register]
    rw [show get_user_id ({ db with users := db.users ++
        [⟨next_user_id db, u, e, hash p⟩] } : DB) u =
      some (next_user_id db) from hlook]
    simp [hu, he1, he2, hp]
  · rw [hreg]
    simp only [register]
    rw [show get_user_id ({ db with users := db.users ++
        [⟨next_user_id db, u, e, hash p⟩] } : DB) u =
      some (next_user_id db) from hlook]
    simp [hu, he1, he2, hp]

/-- Witness for C4: registering "alice" in the empty database, then
registering "alice" again. -/
theorem register_then_conflict_witness :
    ("alice" : String) ≠ "" ∧ ("a@x.com" : String) ≠ "" ∧
    '@' ∈ "a@x.com".data ∧ ("pw1" : String) ≠ "" ∧
    get_user_id (⟨[], [], []⟩ : DB) "alice" = none ∧
    ((register (⟨[], [], []⟩ : DB) none true "alice" "a@x.com" "pw1" "pw1"
        id).response = .redirect "login" ∧
     get_user_id (register (⟨[], [], []⟩ : DB) none true "alice" "a@x.com"
        "pw1" "pw1" id).db "alice" =
       some (next_user_id (⟨[], [], []⟩ : DB)) ∧
     (register (register (⟨[], [], []⟩ : DB) none true "alice" "a@x.com"
        "pw1" "pw1" id).db none true "alice" "a@x.com" "pw1" "pw1"
        id).response =
       .renderPage "register.html" (some "The username is already taken") ∧
     (register (register (⟨[], [], []⟩ : DB) none true "alice" "a@x.com"
        "pw1" "pw1" id).db none true "alice" "a@x.com" "pw1" "pw1"
        id).db =
       (register (⟨[], [], []⟩ : DB) none true "alice" "a@x.com" "pw1"
        "pw1" id).db) :=
  ⟨by decide, by decide, by decide, by decide, by decide,
    register_then_conflict (⟨[], [], []⟩ : DB) "alice" "a@x.com" "pw1" id
      (by decide) (by decide) (by decide) (by decide) (by decide)⟩

end Minitwit
